import Mathlib

/-!
Shallow embedding of the sprite-ordering demo (src/src/main.rs).

The core of the program is:
  - component `SpriteOrder` holding a signed 32-bit `order` value;
  - `SpriteOrder::bump_order`, which sets `order` to `(order + 1) % max_order`
    using Rust remainder semantics (truncated division, sign of the dividend);
  - `SpriteOrderSystem::run`, which for every entity having both a
    `SpriteOrder` and a `Transform` writes `order as f32` into the z axis;
  - scene assembly `add_entities` (a background, a camera, and two ordered
    sprites with orders 0 and 1);
  - `GameState::handle_event`, which quits on close-request / Escape and on
    Space bumps every `SpriteOrder` with modulus 2, and `GameState::update`,
    which dispatches the systems once per tick.

Machine-integer conventions: i32 values are embedded as `Int`; the one place
where i32 arithmetic can leave the representable range (`order + 1`) is
wrapped explicitly with `wrap32` (twos-complement wrap-around, the
release-build semantics of Rust addition).  The f32 coordinates of
`Transform` are embedded as the exact integers they hold: every value this
program ever stores in a coordinate is an integer that binary32 represents
exactly, and the cast `i32 as f32` is embedded by `roundF32`,
round-to-nearest-even at 24 significand bits, which is the identity on the
reachable values.
-/

/-- Twos-complement wrap of an integer into the i32 range
`[-2^31, 2^31)`.  Models overflow of i32 addition in Rust release builds. -/
def wrap32 (n : Int) : Int :=
  (n + 2 ^ 31) % 2 ^ 32 - 2 ^ 31

/-- Round-to-nearest-even conversion of an integer to the nearest IEEE-754
binary32 value, returned as the exact integer that float denotes.  Models
the Rust cast `as f32` applied to an i32 value (all i32 magnitudes are far
inside the binary32 exponent range, so only significand rounding matters);
it is the identity on magnitudes below `2 ^ 24`. -/
def roundF32 (n : Int) : Int :=
  let m := n.natAbs
  if m < 2 ^ 24 then n
  else
    let e := m.log2 + 1 - 24
    let q := m / 2 ^ e
    let r := m % 2 ^ e
    let half := 2 ^ (e - 1)
    let q2 := if half < r ∨ (r = half ∧ q % 2 = 1) then q + 1 else q
    n.sign * ((q2 * 2 ^ e : Nat) : Int)

/-- Sprite Order component: controls which sprite is in front.
Field `order` is an i32 in the source. -/
structure SpriteOrder where
  order : Int
deriving DecidableEq, Repr

/-- `SpriteOrder::bump_order`: `self.order = (self.order + 1) % max_order`.
Rust `%` on i32 is remainder of truncated division (the result takes the
sign of the dividend); `Int.tmod` has exactly those semantics.  The i32 sum
`self.order + 1` wraps on overflow. -/
def SpriteOrder.bump_order (s : SpriteOrder) (max_order : Int) : SpriteOrder :=
  ⟨(wrap32 (s.order + 1)).tmod max_order⟩

/-- The panic branch of the Rust `%` in `bump_order`: integer remainder in
Rust panics when the divisor is zero, and on the one overflowing dividend /
divisor pair (`i32::MIN % -1`).  `bump_order` itself is embedded totally
(`Int.tmod n 0 = n` in Lean); this predicate records exactly the inputs on
which the Rust expression would instead abort. -/
def bump_order_panics (s : SpriteOrder) (max_order : Int) : Bool :=
  max_order == 0 || (wrap32 (s.order + 1) == -(2 ^ 31) && max_order == -1)

/-- amethyst `Transform`, restricted to the three translation axes the
program touches (`set_y`, `set_z`, and the default origin).  The axes are
f32 in the source; see the module comment for the exact-integer embedding. -/
structure Transform where
  x : Int
  y : Int
  z : Int
deriving DecidableEq, Repr

/-- `Transform::default()`: translation at the origin. -/
def Transform.default : Transform := ⟨0, 0, 0⟩

/-- One entity of the world: each `.with(..)` component of the three
`create_entity` builders in the source, made optional.  `texture` keeps the
asset path passed to `load_texture_handle`; `camera` and `transparent`
record presence of the `Camera` and `Transparent` components. -/
structure Entity where
  sprite_order : Option SpriteOrder
  transform : Option Transform
  texture : Option String
  transparent : Bool
  camera : Bool
deriving DecidableEq, Repr

/-- The entity store: the entities in creation order. -/
abbrev World := List Entity

/-- `add_background`: an entity with a default `Transform` and the
background texture, and no `SpriteOrder`. -/
def add_background : Entity :=
  { sprite_order := none
    transform := some Transform.default
    texture := some "sprites/background.png"
    transparent := false
    camera := false }

/-- `add_camera`: a camera entity whose transform has `set_z(100.0)`. -/
def add_camera : Entity :=
  { sprite_order := none
    transform := some { Transform.default with z := 100 }
    texture := none
    transparent := false
    camera := true }

/-- `add_sprite`: an ordered, transparent sprite.  The source sets
`y = (order as f32) * 20.0`; both the cast and the product are embedded with
`roundF32` (the f32 product of two exactly-held integers rounds once). -/
def add_sprite (name : String) (order : Int) : Entity :=
  { sprite_order := some ⟨order⟩
    transform := some { Transform.default with y := roundF32 (roundF32 order * 20) }
    texture := some ("sprites/" ++ name ++ ".png")
    transparent := true
    camera := false }

/-- `add_entities`: the assembled scene, in creation order. -/
def add_entities : World :=
  [ add_background
  , add_camera
  , add_sprite "Character Cat Girl" 0
  , add_sprite "Roof North" 1 ]

/-- Body of the `join` loop of `SpriteOrderSystem::run` for one entity:
when the entity has both a `SpriteOrder` and a `Transform`, write
`set_z(sprite_order.order as f32)`; otherwise the join skips it. -/
def entityTick (e : Entity) : Entity :=
  match e.sprite_order, e.transform with
  | some so, some t => { e with transform := some { t with z := roundF32 so.order } }
  | _, _ => e

/-- `SpriteOrderSystem::run`: one pass of the depth-projection system over
every entity of the world. -/
def SpriteOrderSystem.run (w : World) : World :=
  w.map entityTick

/-- The modulus the program passes to `bump_order`: the literal `2` at the
single call site in `GameState::handle_event`. -/
def cycleLength : Int := 2

/-- Body of the Space-key loop of `GameState::handle_event` for one entity:
every entity with a `SpriteOrder` gets `bump_order(2)`; the join skips the
rest. -/
def entityBump (e : Entity) : Entity :=
  match e.sprite_order with
  | some so => { e with sprite_order := some (so.bump_order cycleLength) }
  | none => e

/-- The Space branch of `GameState::handle_event`: bump every sprite order
in the world. -/
def bumpAllOrders (w : World) : World :=
  w.map entityBump

/-- The keys `GameState::handle_event` inspects (`VirtualKeyCode`). -/
inductive VKey where
  | escape
  | space
  | otherKey
deriving DecidableEq, Repr

/-- A window event as seen through `is_close_requested` / `is_key_down`. -/
inductive WindowEvent where
  | closeRequested
  | keyDown (k : VKey)
  | otherWindowEvent
deriving DecidableEq, Repr

/-- amethyst `StateEvent`: the handler only looks inside the `Window`
variant. -/
inductive StateEvent where
  | window (e : WindowEvent)
  | otherStateEvent
deriving DecidableEq, Repr

/-- amethyst `is_close_requested`. -/
def is_close_requested : WindowEvent → Bool
  | .closeRequested => true
  | _ => false

/-- amethyst `is_key_down`: true exactly on a key-press edge of the given
key. -/
def is_key_down (e : WindowEvent) (k : VKey) : Bool :=
  match e with
  | .keyDown k2 => k2 = k
  | _ => false

/-- amethyst `SimpleTrans` as used by the handler: `Trans::None` or
`Trans::Quit`. -/
inductive SimpleTrans where
  | noTrans
  | quit
deriving DecidableEq, Repr

/-- `GameState::handle_event`: quit on a close request or an Escape press;
on a Space press bump every sprite order (modulus 2) and stay; otherwise
stay.  Returns the updated world together with the transition. -/
def GameState.handle_event (w : World) (event : StateEvent) : World × SimpleTrans :=
  match event with
  | .window e =>
    if is_close_requested e || is_key_down e .escape then
      (w, .quit)
    else if is_key_down e .space then
      (bumpAllOrders w, .noTrans)
    else
      (w, .noTrans)
  | _ => (w, .noTrans)

/-- `GameState::update`: one tick; the dispatcher runs
`SpriteOrderSystem::run` (the only system of `GameBundle`) once. -/
def GameState.update (w : World) : World :=
  SpriteOrderSystem.run w

/-- One step of the session after `on_start`: either a tick of the game
data or one event delivered to the handler. -/
inductive GameAction where
  | tick
  | event (e : StateEvent)

/-- Execute a sequence of ticks and events starting from a world. -/
def exec (w : World) : List GameAction → World
  | [] => w
  | .tick :: rest => exec (GameState.update w) rest
  | .event e :: rest => exec (GameState.handle_event w e).1 rest

/-- Modelled from the spec: the session-level state machine.  The amethyst
state-stack driver that interprets the returned `SimpleTrans` is framework
code outside this repository; per the spec it keeps a single `Running`
session state and moves to `Terminated` exactly when a handler returns
`Trans::Quit`. -/
inductive SessionState where
  | running
  | terminated
deriving DecidableEq, Repr

/-- Modelled from the spec: how the framework driver applies a returned
transition to the session state. -/
def sessionStep : SessionState → SimpleTrans → SessionState
  | .running, .quit => .terminated
  | .running, .noTrans => .running
  | .terminated, _ => .terminated

/-- Checker for the range invariant of one order slot:
`0 <= order < cycleLength` whenever the component is present. -/
def orderInRange (so : Option SpriteOrder) : Bool :=
  match so with
  | some s => decide (0 ≤ s.order ∧ s.order < cycleLength)
  | none => true

/-- Checker for the range invariant over a whole world. -/
def ordersInRange (w : World) : Bool :=
  w.all fun e => orderInRange e.sprite_order

/-- Checker for the projection invariant: every entity holding both
components has its depth axis equal to its order value. -/
def depthMatchesOrder (w : World) : Bool :=
  w.all fun e =>
    match e.sprite_order, e.transform with
    | some so, some t => t.z == so.order
    | _, _ => true

/-- The order values of the ordered entities, in creation order. -/
def orderedOrders (w : World) : List Int :=
  w.filterMap fun e => e.sprite_order.map SpriteOrder.order

/-- The depth axes of the ordered entities that also hold a transform, in
creation order. -/
def orderedDepths (w : World) : List Int :=
  w.filterMap fun e =>
    match e.sprite_order, e.transform with
    | some _, some t => some t.z
    | _, _ => none

-- ===================================================================
-- Helper lemmas

theorem wrap32_eq_self (n : Int) (h0 : -(2 ^ 31) ≤ n) (h1 : n < 2 ^ 31) :
    wrap32 n = n := by
  unfold wrap32
  omega

theorem roundF32_eq_self (n : Int) (h : n.natAbs < 2 ^ 24) :
    roundF32 n = n := by
  unfold roundF32
  simp only []
  rw [if_pos h]

theorem entityTick_sprite_order (e : Entity) :
    (entityTick e).sprite_order = e.sprite_order := by
  rcases e with ⟨so, t, tex, tr, c⟩
  cases so <;> cases t <;> rfl

theorem entityBump_transform (e : Entity) :
    (entityBump e).transform = e.transform := by
  rcases e with ⟨so, t, tex, tr, c⟩
  cases so <;> rfl

theorem entityTick_of_no_order (e : Entity) (h : e.sprite_order = none) :
    entityTick e = e := by
  rcases e with ⟨so, t, tex, tr, c⟩
  simp only at h
  subst h
  cases t <;> rfl

theorem bump_order_cycle_range (s : SpriteOrder)
    (h : 0 ≤ s.order ∧ s.order < cycleLength) :
    0 ≤ (s.bump_order cycleLength).order ∧
      (s.bump_order cycleLength).order < cycleLength := by
  rcases s with ⟨o⟩
  simp only [cycleLength] at h ⊢
  have hor : o = 0 ∨ o = 1 := by omega
  rcases hor with rfl | rfl <;> decide

theorem bump_order_cycle_twice (s : SpriteOrder)
    (h : 0 ≤ s.order ∧ s.order < cycleLength) :
    (s.bump_order cycleLength).bump_order cycleLength = s := by
  rcases s with ⟨o⟩
  simp only [cycleLength] at h
  have hor : o = 0 ∨ o = 1 := by omega
  rcases hor with rfl | rfl <;> decide

theorem entityBump_range (e : Entity) (h : orderInRange e.sprite_order = true) :
    orderInRange (entityBump e).sprite_order = true := by
  rcases e with ⟨so, t, tex, tr, c⟩
  cases so with
  | none => exact h
  | some s =>
    have hs : 0 ≤ s.order ∧ s.order < cycleLength := by
      simpa [orderInRange] using h
    show orderInRange (some (s.bump_order cycleLength)) = true
    simpa [orderInRange] using bump_order_cycle_range s hs

theorem entityBump_twice (e : Entity) (h : orderInRange e.sprite_order = true) :
    entityBump (entityBump e) = e := by
  rcases e with ⟨so, t, tex, tr, c⟩
  cases so with
  | none => rfl
  | some s =>
    have hs : 0 ≤ s.order ∧ s.order < cycleLength := by
      simpa [orderInRange] using h
    show Entity.mk (some ((s.bump_order cycleLength).bump_order cycleLength)) t tex tr c =
      Entity.mk (some s) t tex tr c
    rw [bump_order_cycle_twice s hs]

theorem ordersInRange_bumpAllOrders (w : World) (h : ordersInRange w = true) :
    ordersInRange (bumpAllOrders w) = true := by
  simp only [ordersInRange, bumpAllOrders, List.all_map, List.all_eq_true] at *
  intro e he
  exact entityBump_range e (h e he)

theorem ordersInRange_run (w : World) (h : ordersInRange w = true) :
    ordersInRange (SpriteOrderSystem.run w) = true := by
  simp only [ordersInRange, SpriteOrderSystem.run, List.all_map, List.all_eq_true] at *
  intro e he
  have := entityTick_sprite_order e
  simp only [Function.comp]
  rw [this]
  exact h e he

theorem ordersInRange_handle_event (w : World) (ev : StateEvent)
    (h : ordersInRange w = true) :
    ordersInRange (GameState.handle_event w ev).1 = true := by
  rcases ev with we | _
  · unfold GameState.handle_event
    by_cases h1 : (is_close_requested we || is_key_down we .escape) = true
    · simp [h1, h]
    · by_cases h2 : is_key_down we .space = true
      · simp only [Bool.not_eq_true] at h1
        simp [h1, h2, ordersInRange_bumpAllOrders w h]
      · simp only [Bool.not_eq_true] at h1 h2
        simp [h1, h2, h]
  · exact h

theorem ordersInRange_exec (acts : List GameAction) (w : World)
    (h : ordersInRange w = true) :
    ordersInRange (exec w acts) = true := by
  induction acts generalizing w with
  | nil => exact h
  | cons a rest ih =>
    cases a with
    | tick => exact ih _ (ordersInRange_run w h)
    | event e => exact ih _ (ordersInRange_handle_event w e h)

theorem ordersInRange_add_entities : ordersInRange add_entities = true := by
  decide

theorem entityTick_proj (e : Entity) (h : orderInRange e.sprite_order = true) :
    (match (entityTick e).sprite_order, (entityTick e).transform with
      | some so, some t => t.z == so.order
      | _, _ => true) = true := by
  rcases e with ⟨so, t, tex, tr, c⟩
  cases so with
  | none => cases t <;> rfl
  | some s =>
    cases t with
    | none => rfl
    | some tv =>
      have hs : 0 ≤ s.order ∧ s.order < cycleLength := by
        simpa [orderInRange] using h
      show (roundF32 s.order == s.order) = true
      have habs : s.order.natAbs < 2 ^ 24 := by
        simp only [cycleLength] at hs
        omega
      simp [roundF32_eq_self s.order habs]

theorem depthMatchesOrder_run (w : World) (h : ordersInRange w = true) :
    depthMatchesOrder (SpriteOrderSystem.run w) = true := by
  simp only [ordersInRange, List.all_eq_true] at h
  simp only [depthMatchesOrder, SpriteOrderSystem.run, List.all_map, List.all_eq_true]
  intro e he
  exact entityTick_proj e (h e he)

theorem entityTick_idem (e : Entity) :
    entityTick (entityTick e) = entityTick e := by
  rcases e with ⟨so, t, tex, tr, c⟩
  cases so <;> cases t <;> rfl

theorem bumpAllOrders_twice (w : World) (h : ordersInRange w = true) :
    bumpAllOrders (bumpAllOrders w) = w := by
  induction w with
  | nil => rfl
  | cons e rest ih =>
    simp only [ordersInRange, List.all_cons, Bool.and_eq_true] at h
    have hrest := ih (by simpa [ordersInRange] using h.2)
    simp only [bumpAllOrders, List.map_cons] at *
    rw [entityBump_twice e h.1]
    exact congrArg (e :: ·) hrest

theorem run_getElem?_no_order (w : World) (i : Nat) (e : Entity)
    (hw : w[i]? = some e) (hso : e.sprite_order = none) :
    (SpriteOrderSystem.run w)[i]? = some e := by
  simp [SpriteOrderSystem.run, List.getElem?_map, hw, entityTick_of_no_order e hso]

-- ===================================================================
-- Claim theorems

/-- C1: for every entity holding both an Order Component and a Spatial
Component, immediately after the Depth-Projection System runs on any state
the program can reach from the assembled scene, the depth axis of the
entity equals its current order value, as an exact integer equality. -/
theorem depth_projection_invariant (acts : List GameAction) :
    depthMatchesOrder (SpriteOrderSystem.run (exec add_entities acts)) = true :=
  depthMatchesOrder_run _ (ordersInRange_exec acts add_entities ordersInRange_add_entities)

/-- C2 counterexample: starting from order `-2` with cycle length `2`,
`bump_order` yields `-1` (Rust `%` keeps the sign of the dividend), which
is negative, outside `[0, 2)`, and different from the true-modulo value
`(-2 + 1) mod 2 = 1`.  This refutes the claim that `bump` uses true modulo
and lands in `[0, cycle_length)` for every starting order. -/
theorem bump_order_negative_counterexample :
    (SpriteOrder.mk (-2)).bump_order 2 = SpriteOrder.mk (-1) ∧
      ¬ (0 ≤ ((SpriteOrder.mk (-2)).bump_order 2).order) ∧
      ((SpriteOrder.mk (-2)).bump_order 2).order ≠ (-2 + 1) % 2 := by
  decide

/-- C2 amended: for every starting order that is non-negative (and small
enough that the i32 increment cannot wrap) and every cycle length `m > 0`,
`bump_order` computes the true modulo `(order + 1) mod m`, and the result
lies in `[0, m)`.  For negative starting orders the Rust remainder is
truncated, not true modulo (see the counterexample). -/
theorem bump_order_true_mod_of_nonneg (o m : Int) (h0 : 0 ≤ o)
    (h1 : o < 2 ^ 31 - 1) (hm : 0 < m) :
    ((SpriteOrder.mk o).bump_order m).order = (o + 1) % m ∧
      0 ≤ ((SpriteOrder.mk o).bump_order m).order ∧
      ((SpriteOrder.mk o).bump_order m).order < m := by
  have hw : wrap32 (o + 1) = o + 1 := wrap32_eq_self _ (by omega) (by omega)
  have ht : (o + 1).tmod m = (o + 1) % m := Int.tmod_eq_emod (by omega) (by omega)
  have he1 : 0 ≤ (o + 1) % m := Int.emod_nonneg _ (by omega)
  have he2 : (o + 1) % m < m := Int.emod_lt_of_pos _ hm
  have key : ((SpriteOrder.mk o).bump_order m).order = (o + 1) % m := by
    simp only [SpriteOrder.bump_order, hw, ht]
  rw [key]
  exact ⟨rfl, he1, he2⟩

/-- C2 witness: the amended statement evaluated at order `0`, cycle
length `2`. -/
theorem bump_order_true_mod_witness :
    ((SpriteOrder.mk 0).bump_order 2).order = (0 + 1) % 2 ∧
      0 ≤ ((SpriteOrder.mk 0).bump_order 2).order ∧
      ((SpriteOrder.mk 0).bump_order 2).order < 2 :=
  bump_order_true_mod_of_nonneg 0 2 (by decide) (by decide) (by decide)

/-- C3: starting from the assembled scene, after any sequence of ticks and
events (in particular after any number `k ≥ 0` of cycling triggers), every
entity with an Order Component has `0 ≤ order < cycleLength`. -/
theorem order_range_invariant (acts : List GameAction) :
    ordersInRange (exec add_entities acts) = true :=
  ordersInRange_exec acts add_entities ordersInRange_add_entities

/-- C4: on any state the program can reach from the assembled scene,
applying the Order-Cycling Operation `cycleLength` (= 2) times in
succession returns every ordered entity (indeed the whole world) to its
pre-cycle value. -/
theorem cycling_roundtrip (acts : List GameAction) :
    bumpAllOrders (bumpAllOrders (exec add_entities acts)) = exec add_entities acts :=
  bumpAllOrders_twice _ (ordersInRange_exec acts add_entities ordersInRange_add_entities)

/-- C5: Scenario A.  With cycle length 2 and the two ordered sprites
assembled at orders 0 and 1, one Space trigger makes the orders 1 and 0
respectively, and the following tick makes the depths 1 and 0
respectively (the orders still being 1 and 0). -/
theorem scenario_a_concrete :
    orderedOrders add_entities = [0, 1] ∧
      orderedOrders (GameState.handle_event add_entities (.window (.keyDown .space))).1 =
        [1, 0] ∧
      orderedDepths
        (GameState.update (GameState.handle_event add_entities (.window (.keyDown .space))).1) =
        [1, 0] ∧
      orderedOrders
        (GameState.update (GameState.handle_event add_entities (.window (.keyDown .space))).1) =
        [1, 0] := by
  decide

/-- C6 counterexample: with the non-positive modulus `-2`, `bump_order`
happily evaluates the remainder (no construction-time refusal exists in
the code, and no panic occurs): from order `0` it returns order `1`.
This refutes the claim that a non-positive cycle length is rejected
fatally before the modulo is ever evaluated. -/
theorem nonpositive_modulus_evaluates :
    (SpriteOrder.mk 0).bump_order (-2) = SpriteOrder.mk 1 ∧
      bump_order_panics (SpriteOrder.mk 0) (-2) = false := by
  decide

/-- C6 amended: the program performs no construction-time validation of
the cycle length; it is the hard-coded literal `2` (which is positive) at
the single call site.  For every positive modulus, `bump_order` never hits
the remainder panic branch (remainder by zero or the overflowing
`i32::MIN % -1`). -/
theorem bump_no_remainder_panic (s : SpriteOrder) (m : Int) (hm : 0 < m) :
    cycleLength = 2 ∧ bump_order_panics s m = false := by
  refine ⟨rfl, ?_⟩
  have h0 : m ≠ 0 := by omega
  have h1 : m ≠ -1 := by omega
  simp [bump_order_panics, h0, h1]

/-- C6 witness: the amended statement evaluated at order `5`,
modulus `7`. -/
theorem bump_no_remainder_panic_witness :
    cycleLength = 2 ∧ bump_order_panics (SpriteOrder.mk 5) 7 = false :=
  bump_no_remainder_panic (SpriteOrder.mk 5) 7 (by decide)

/-- C7: writer isolation.  The Order-Cycling Operation leaves every
transform (hence the X and Y spatial axes) of every entity unchanged, and
the Depth-Projection System leaves every order value unchanged. -/
theorem writer_isolation (w : World) :
    (bumpAllOrders w).map Entity.transform = w.map Entity.transform ∧
      (SpriteOrderSystem.run w).map Entity.sprite_order = w.map Entity.sprite_order := by
  constructor
  · simp only [bumpAllOrders, List.map_map]
    congr 1
    funext e
    exact entityBump_transform e
  · simp only [SpriteOrderSystem.run, List.map_map]
    congr 1
    funext e
    exact entityTick_sprite_order e

/-- C8: an entity that has no Order Component (such as the background or
the camera) is never modified by the Depth-Projection System, no matter
how many ticks elapse; it is silently skipped. -/
theorem unordered_entities_untouched (w : World) (n i : Nat) (e : Entity)
    (hw : w[i]? = some e) (hso : e.sprite_order = none) :
    (exec w (List.replicate n GameAction.tick))[i]? = some e := by
  induction n generalizing w with
  | zero => exact hw
  | succ k ih =>
    simp only [List.replicate_succ, exec, GameState.update]
    exact ih _ (run_getElem?_no_order w i e hw hso)

/-- C8 witness: the background entity of the assembled scene (position 0,
no Order Component) is untouched by three ticks. -/
theorem unordered_entities_untouched_witness :
    add_entities[0]? = some add_background ∧ add_background.sprite_order = none ∧
      (exec add_entities (List.replicate 3 GameAction.tick))[0]? = some add_background :=
  ⟨by decide, rfl,
    unordered_entities_untouched add_entities 3 0 add_background (by decide) rfl⟩

/-- C9: a quit trigger (close request or Escape key edge) delivered to the
event handler in any world state returns the unchanged world together with
`Trans::Quit`, which moves the session state machine from Running to
Terminated; no tick and no order mutation happens in that handling. -/
theorem quit_trigger_terminates (w : World) (ev : StateEvent)
    (h : ev = .window .closeRequested ∨ ev = .window (.keyDown .escape)) :
    GameState.handle_event w ev = (w, SimpleTrans.quit) ∧
      sessionStep .running (GameState.handle_event w ev).2 = .terminated := by
  rcases h with rfl | rfl <;> exact ⟨rfl, rfl⟩

/-- C9 witness: the close-request event on the assembled scene. -/
theorem quit_trigger_terminates_witness :
    GameState.handle_event add_entities (.window .closeRequested) =
        (add_entities, SimpleTrans.quit) ∧
      sessionStep .running
          (GameState.handle_event add_entities (.window .closeRequested)).2 =
        .terminated :=
  quit_trigger_terminates add_entities (.window .closeRequested) (Or.inl rfl)

/-- C10: the Depth-Projection System is idempotent: running it twice in
succession on any component state produces exactly the state produced by
running it once. -/
theorem run_idempotent (w : World) :
    SpriteOrderSystem.run (SpriteOrderSystem.run w) = SpriteOrderSystem.run w := by
  simp only [SpriteOrderSystem.run, List.map_map]
  congr 1
  funext e
  exact entityTick_idem e
